import Mathlib

/-
Shallow embedding of tensorflow/python/training/distribute.py
(class DistributionStrategy, ReplicaContext, InputContext and the
default no-op strategy), together with proofs about the mode-guard,
scope, merge-call, argument-passing and batch-size behaviour.

Object identity of DistributionStrategy instances is modelled by a
natural-number identifier; the identifier 0 is reserved for the default
strategy singleton owned by distribution_strategy_context.  The
per-thread mode stack (which lives in
tensorflow/python/training/distribution_strategy_context.py, a module
of this repository that is not part of the sources under analysis) is
modelled from the spec as an explicit list of thread modes threaded
through every operation.  Python exceptions are modelled as error
values of type PyError.
-/

set_option linter.unusedVariables false

/-- ReplicaContext object (class ReplicaContext in distribute.py): holds a
back-reference to its owning strategy (by identity) and the replica id in
the sync group. -/
structure ReplicaContext where
  distribution_strategy : Nat
  replica_id_in_sync_group : Nat
deriving DecidableEq, Repr

/-- Modelled from the spec: the per-thread execution mode
(distribution_strategy_context, not under the analysed sources).  A mode
is either the implicit default sentinel (empty stack), a cross-replica
mode owning a strategy, or an in-replica mode owning a ReplicaContext. -/
inductive ThreadMode where
  | defaultMode : ThreadMode
  | crossReplica (strategy : Nat) : ThreadMode
  | inReplica (ctx : ReplicaContext) : ThreadMode
deriving DecidableEq, Repr

/-- Modelled from the spec: identity of the default strategy singleton. -/
def defaultStrategyId : Nat := 0

/-- Modelled from the spec: the default single-replica context active when
no mode has been pushed (the thread starts in a replica context of the
default strategy). -/
def defaultReplicaContext : ReplicaContext :=
  { distribution_strategy := defaultStrategyId, replica_id_in_sync_group := 0 }

/-- Modelled from the spec: the per-thread LIFO stack of execution modes. -/
abbrev ModeStack := List ThreadMode

/-- Modelled from the spec: push a mode onto the per-thread stack. -/
def _push_per_thread_mode (mode : ThreadMode) (st : ModeStack) : ModeStack :=
  mode :: st

/-- Modelled from the spec: pop the most recently pushed mode. -/
def _pop_per_thread_mode (st : ModeStack) : ModeStack :=
  st.tail

/-- Modelled from the spec: current mode, or the implicit default sentinel
when the stack is empty. -/
def _get_per_thread_mode (st : ModeStack) : ThreadMode :=
  st.headD .defaultMode

/-- Strategy identity carried by a thread mode (attribute
distribution_strategy of the thread-mode objects in
distribution_strategy_context; the default sentinel carries the default
strategy singleton). -/
def ThreadMode.distribution_strategy : ThreadMode → Nat
  | .defaultMode => defaultStrategyId
  | .crossReplica strategy => strategy
  | .inReplica ctx => ctx.distribution_strategy

/-- Cross-replica context carried by a thread mode (attribute
cross_replica_context): the owning strategy in cross-replica mode, none
otherwise. -/
def ThreadMode.cross_replica_context : ThreadMode → Option Nat
  | .defaultMode => none
  | .crossReplica strategy => some strategy
  | .inReplica _ => none

/-- Replica context carried by a thread mode (attribute replica_context):
the ReplicaContext in replica mode, the default replica context for the
default sentinel, none in cross-replica mode. -/
def ThreadMode.replica_context : ThreadMode → Option ReplicaContext
  | .defaultMode => some defaultReplicaContext
  | .crossReplica _ => none
  | .inReplica ctx => some ctx

/-- Modelled from the spec: has_distribution_strategy of
distribution_strategy_context; true when the current mode belongs to a
strategy other than the default singleton. -/
def has_distribution_strategy (st : ModeStack) : Bool :=
  (_get_per_thread_mode st).distribution_strategy != defaultStrategyId

/-- Python exceptions raised by the embedded code, as error values. -/
inductive PyError where
  | needScope (strategy : Nat)
  | mixingStrategies (current : Nat) (given : Nat)
  | requiresCrossReplica
  | needCallForEachReplica
  | mismatchingReplicaContext
  | mismatchingStrategies (current : Nat) (given : Nat)
  | ambiguousArgs (method : String)
  | ambiguousKwargs (method : String)
  | notImplemented
  | mustNotNest
  | valueError (msg : String)
deriving DecidableEq, Repr

/-- Guard _require_cross_replica_context: succeed only when the current
mode is the cross-replica context of exactly this strategy; otherwise
report one of three errors exactly as the source does. -/
def _require_cross_replica_context (st : ModeStack) (distribution_strategy : Nat) :
    Except PyError Unit :=
  let context := _get_per_thread_mode st
  if context.cross_replica_context = some distribution_strategy then .ok ()
  else if context.distribution_strategy ≠ distribution_strategy then
    if !has_distribution_strategy st then .error (.needScope distribution_strategy)
    else .error (.mixingStrategies context.distribution_strategy distribution_strategy)
  else .error .requiresCrossReplica

/-- Guard require_replica_context: succeed only when the current mode is
the replica context of exactly this ReplicaContext object. -/
def require_replica_context (st : ModeStack) (replica_ctx : ReplicaContext) :
    Except PyError Unit :=
  let context := _get_per_thread_mode st
  if context.replica_context = some replica_ctx then .ok ()
  else if context.replica_context = none then .error .needCallForEachReplica
  else if context.distribution_strategy = replica_ctx.distribution_strategy then
    .error .mismatchingReplicaContext
  else
    .error (.mismatchingStrategies context.distribution_strategy
      replica_ctx.distribution_strategy)

/-- Guard _require_distribution_strategy_scope: succeed when the current
mode belongs to this strategy (cross-replica or replica). -/
def _require_distribution_strategy_scope (st : ModeStack) (distribution_strategy : Nat) :
    Except PyError Unit :=
  let context := _get_per_thread_mode st
  if context.distribution_strategy = distribution_strategy then .ok ()
  else if !has_distribution_strategy st then .error (.needScope distribution_strategy)
  else .error (.mixingStrategies context.distribution_strategy distribution_strategy)

/-- InputContext: immutable description of one input pipeline shard. -/
structure InputContext where
  num_input_pipelines : Int
  input_pipeline_id : Int
  num_replicas_in_sync : Int
deriving DecidableEq, Repr

/-- InputContext.get_per_replica_batch_size: error unless the global batch
size is divisible by num_replicas_in_sync, else the exact quotient.
Python floor semantics of the percent and double-slash operators are
Int.fmod and Int.fdiv. -/
def InputContext.get_per_replica_batch_size (self : InputContext)
    (global_batch_size : Int) : Except PyError Int :=
  if global_batch_size.fmod self.num_replicas_in_sync ≠ 0 then
    .error (.valueError "The global_batch_size is not divisible by num_replicas_in_sync")
  else
    .ok (global_batch_size.fdiv self.num_replicas_in_sync)

/-- Keyword arguments of a coordination call, with the structured
args and kwargs containers separated from the remaining keywords. -/
structure CallKwargs (α : Type) where
  args_kw : Option (List α)
  kwargs_kw : Option (List (String × α))
  other : List (String × α)
deriving DecidableEq, Repr

/-- Argument normalization shared (textually repeated in the source) by
call_for_each_replica, update, update_non_slot and merge_call: accept the
legacy trailing positional arguments or the structured args container,
but not both, and likewise for keyword arguments. -/
def normalize_call_args {α : Type} (method : String) (args : List α)
    (kw : CallKwargs α) : Except PyError (List α × List (String × α)) :=
  match kw.args_kw with
  | some a =>
    if !args.isEmpty then .error (.ambiguousArgs method)
    else
      match kw.kwargs_kw with
      | some k =>
        if !kw.other.isEmpty then .error (.ambiguousKwargs method)
        else .ok (a, k)
      | none => .ok (a, kw.other)
  | none =>
    match kw.kwargs_kw with
    | some k =>
      if !kw.other.isEmpty then .error (.ambiguousKwargs method)
      else .ok (args, k)
    | none => .ok (args, kw.other)

/-- Replica function as run by call_for_each_replica: receives positional
arguments, keyword arguments, and observes the ambient mode stack; may
raise.  The function interacts with the stack only through the balanced
public API, so it reads but does not mutate the stack. -/
abbrev Fn (α ρ : Type) := List α → List (String × α) → ModeStack → Except PyError ρ

/-- Merge function as run by merge_call: receives the owning strategy as
first argument (merge_fn of the source), then positional and keyword
arguments, and observes the ambient mode stack; may raise. -/
abbrev MergeFn (α ρ : Type) := Nat → List α → List (String × α) → ModeStack → Except PyError ρ

/-- ReplicaContext._merge_call: push the cross-replica mode of the owning
strategy, run merge_fn, and pop the mode again in a finally block, so the
pop happens whether merge_fn returns or raises. -/
def ReplicaContext._merge_call {α ρ : Type} (self : ReplicaContext)
    (merge_fn : MergeFn α ρ) (args : List α) (kwargs : List (String × α))
    (st : ModeStack) : Except PyError ρ × ModeStack :=
  let st1 := _push_per_thread_mode (.crossReplica self.distribution_strategy) st
  (merge_fn self.distribution_strategy args kwargs st1, _pop_per_thread_mode st1)

/-- ReplicaContext.merge_call: assert the replica-context guard for this
context, normalize the argument-passing style, then delegate to
_merge_call. -/
def ReplicaContext.merge_call {α ρ : Type} (self : ReplicaContext)
    (merge_fn : MergeFn α ρ) (args : List α) (kw : CallKwargs α)
    (st : ModeStack) : Except PyError ρ × ModeStack :=
  match require_replica_context st self with
  | .error e => (.error e, st)
  | .ok _ =>
    match normalize_call_args "merge_call" args kw with
    | .error e => (.error e, st)
    | .ok (a, k) => ReplicaContext._merge_call self merge_fn a k st

/-- Hook signature for the per-strategy _call_for_each_replica
implementation. -/
abbrev CallForEachReplicaHook (α ρ : Type) :=
  Fn α ρ → List α → List (String × α) → ModeStack → Except PyError ρ × ModeStack

/-- DistributionStrategy.call_for_each_replica: cross-replica guard,
argument normalization, removal of the ignored run_concurrently keyword,
then dispatch to the strategy hook. -/
def DistributionStrategy.call_for_each_replica {α ρ : Type} (sid : Nat)
    (call_hook : CallForEachReplicaHook α ρ) (fn : Fn α ρ) (args : List α)
    (kw : CallKwargs α) (st : ModeStack) : Except PyError ρ × ModeStack :=
  match _require_cross_replica_context st sid with
  | .error e => (.error e, st)
  | .ok _ =>
    match normalize_call_args "call_for_each_replica" args kw with
    | .error e => (.error e, st)
    | .ok (a, k) =>
      call_hook fn a (k.filter (fun p => p.1 != "run_concurrently")) st

/-- _DefaultDistributionStrategy._call_for_each_replica: run fn directly
inside one freshly constructed ReplicaContext with replica id 0; the
with-statement pushes the in-replica mode on entry and pops it on every
exit path, raising or not. -/
def _DefaultDistributionStrategy._call_for_each_replica {α ρ : Type} (sid : Nat)
    (fn : Fn α ρ) (args : List α) (kwargs : List (String × α)) (st : ModeStack) :
    Except PyError ρ × ModeStack :=
  let ctx : ReplicaContext :=
    { distribution_strategy := sid, replica_id_in_sync_group := 0 }
  let st1 := _push_per_thread_mode (.inReplica ctx) st
  (fn args kwargs st1, _pop_per_thread_mode st1)

/-- Public call_for_each_replica of the default strategy: the base-class
method dispatching to the default hook. -/
def _DefaultDistributionStrategy.call_for_each_replica {α ρ : Type} (sid : Nat)
    (fn : Fn α ρ) (args : List α) (kw : CallKwargs α) (st : ModeStack) :
    Except PyError ρ × ModeStack :=
  DistributionStrategy.call_for_each_replica sid
    (_DefaultDistributionStrategy._call_for_each_replica sid) fn args kw st

/-- The _CurrentDistributionContext manager built by
DistributionStrategy.scope: records which scopes it will install on
entry (variable creator scope always, variable scope when given one,
device scope when a default device is set). -/
structure _CurrentDistributionContext where
  strategy : Nat
  var_scope : Bool
  default_device : Option Nat
deriving DecidableEq, Repr

/-- Context manager returned by scope: either a full
_CurrentDistributionContext or the trivial _SameScopeAgainContext. -/
inductive ScopeContextManager where
  | currentDistributionContext (c : _CurrentDistributionContext)
  | sameScopeAgainContext (strategy : Nat)
deriving DecidableEq, Repr

/-- Observable effect of entering a scope context manager: the resulting
mode stack and which scopes were installed. -/
structure ScopeEnterEffect where
  stack : ModeStack
  var_creator_scope_entered : Bool
  var_scope_entered : Bool
  device_scope_entered : Bool
deriving DecidableEq, Repr

/-- Entering the context manager returned by scope:
_CurrentDistributionContext pushes the cross-replica mode and enters the
variable-creator, variable and device scopes; _SameScopeAgainContext is a
pass-through that installs nothing and leaves the stack unchanged. -/
def ScopeContextManager.enter : ScopeContextManager → ModeStack → ScopeEnterEffect
  | .currentDistributionContext c, st =>
    { stack := _push_per_thread_mode (.crossReplica c.strategy) st
      var_creator_scope_entered := true
      var_scope_entered := c.var_scope
      device_scope_entered := c.default_device.isSome }
  | .sameScopeAgainContext _, st =>
    { stack := st
      var_creator_scope_entered := false
      var_scope_entered := false
      device_scope_entered := false }

/-- DistributionStrategy.scope: if a strategy is already current, require
it to be this strategy in cross-replica mode and return the trivial
same-scope context; otherwise return a fresh _CurrentDistributionContext
installing the variable creator, a variable scope and the default
device. -/
def DistributionStrategy.scope (sid : Nat) (default_device : Option Nat)
    (st : ModeStack) : Except PyError ScopeContextManager :=
  if has_distribution_strategy st then
    match _require_cross_replica_context st sid with
    | .error e => .error e
    | .ok _ => .ok (.sameScopeAgainContext sid)
  else
    .ok (.currentDistributionContext
      { strategy := sid, var_scope := true, default_device := default_device })

/-- _DefaultDistributionStrategy.scope: refuses any nesting; otherwise a
fresh context with only the variable-creator scope. -/
def _DefaultDistributionStrategy.scope (sid : Nat) (st : ModeStack) :
    Except PyError ScopeContextManager :=
  if has_distribution_strategy st then .error .mustNotNest
  else .ok (.currentDistributionContext
    { strategy := sid, var_scope := false, default_device := none })

/-- Reduction operator (reduce_util.ReduceOp; the deprecated
VariableAggregation spelling and its conversion live in reduce_util,
outside the analysed sources, and are not modelled). -/
inductive ReduceOp where
  | SUM
  | MEAN
  | ONLY_FIRST_REPLICA
deriving DecidableEq, Repr

/-- DistributionStrategy.reduce: cross-replica guard, then the strategy
reduce hook. -/
def DistributionStrategy.reduce {V D : Type} (sid : Nat)
    (reduce_hook : ReduceOp → V → D → V) (st : ModeStack)
    (reduce_op : ReduceOp) (value : V) (destinations : D) : Except PyError V :=
  match _require_cross_replica_context st sid with
  | .error e => .error e
  | .ok _ => .ok (reduce_hook reduce_op value destinations)

/-- DistributionStrategy._batch_reduce: literally one public reduce call
per value-destination pair, in order. -/
def DistributionStrategy._batch_reduce {V D : Type} (sid : Nat)
    (reduce_hook : ReduceOp → V → D → V) (st : ModeStack) (reduce_op : ReduceOp)
    (value_destination_pairs : List (V × D)) : Except PyError (List V) :=
  value_destination_pairs.mapM
    (fun p => DistributionStrategy.reduce sid reduce_hook st reduce_op p.1 p.2)

/-- DistributionStrategy.batch_reduce: cross-replica guard, then
_batch_reduce. -/
def DistributionStrategy.batch_reduce {V D : Type} (sid : Nat)
    (reduce_hook : ReduceOp → V → D → V) (st : ModeStack) (reduce_op : ReduceOp)
    (value_destination_pairs : List (V × D)) : Except PyError (List V) :=
  match _require_cross_replica_context st sid with
  | .error e => .error e
  | .ok _ =>
    DistributionStrategy._batch_reduce sid reduce_hook st reduce_op
      value_destination_pairs

/-- DistributionStrategy.broadcast: cross-replica guard, then the strategy
broadcast hook. -/
def DistributionStrategy.broadcast {V D : Type} (sid : Nat)
    (broadcast_hook : V → Option D → Except PyError V) (st : ModeStack)
    (tensor : V) (destinations : Option D) : Except PyError V :=
  match _require_cross_replica_context st sid with
  | .error e => .error e
  | .ok _ => broadcast_hook tensor destinations

/-- _DefaultDistributionStrategy._reduce: ignores the operator and the
destinations and returns the value unchanged. -/
def _DefaultDistributionStrategy._reduce {V D : Type} (reduce_op : ReduceOp)
    (value : V) (destinations : D) : V :=
  value

/-- _DefaultDistributionStrategy._broadcast: identity when destinations is
None, NotImplementedError otherwise. -/
def _DefaultDistributionStrategy._broadcast {V D : Type} (tensor : V)
    (destinations : Option D) : Except PyError V :=
  match destinations with
  | none => .ok tensor
  | some _ => .error .notImplemented

/-- _DefaultDistributionStrategy._unwrap: a one-element list holding the
value. -/
def _DefaultDistributionStrategy._unwrap {V : Type} (distributed_value : V) :
    List V :=
  [distributed_value]

/-- DistributionStrategy.unwrap: delegates to the strategy unwrap hook. -/
def DistributionStrategy.unwrap {V : Type} (unwrap_hook : V → List V)
    (value : V) : List V :=
  unwrap_hook value

/-- Nested structure of values as handled by tensorflow.python.util.nest:
a leaf or a sequence of nested structures. -/
inductive Nest (α : Type) where
  | leaf (value : α)
  | node (children : List (Nest α))
deriving Repr

mutual

/-- Modelled from the spec: nest.map_structure (tensorflow.python.util.nest,
outside the analysed sources) applies a function to every leaf, keeping
the structure. -/
def map_structure {α β : Type} (f : α → β) : Nest α → Nest β
  | .leaf value => .leaf (f value)
  | .node children => .node (map_structure_list f children)

/-- Helper of map_structure for a list of children. -/
def map_structure_list {α β : Type} (f : α → β) : List (Nest α) → List (Nest β)
  | [] => []
  | c :: cs => map_structure f c :: map_structure_list f cs

end

/-- Result of an update or update_non_slot call: the raw merged result of
fn when grouped, or the result with every leaf replaced by its unwrapped
per-device list when ungrouped. -/
inductive UpdateResult (V : Type) where
  | groupedResult (result : Nest V)
  | ungroupedResult (result : Nest (List V))
deriving Repr

/-- Function run by update and update_non_slot.  It receives the device
installed by the ambient UpdateContext (get_update_device) as first
parameter, then positional and keyword arguments, and returns a nested
structure of values. -/
abbrev UpdateFn (α V : Type) := Option α → List α → List (String × α) → Nest V

/-- Keyword arguments of update and update_non_slot: the group and grouped
flags popped first, then the shared argument-passing containers. -/
structure UpdateKwargs (α : Type) where
  group : Option Bool
  grouped : Option Bool
  args_kw : Option (List α)
  kwargs_kw : Option (List (String × α))
  other : List (String × α)
deriving DecidableEq, Repr

/-- The argument-passing part of UpdateKwargs. -/
def UpdateKwargs.toCallKwargs {α : Type} (kw : UpdateKwargs α) : CallKwargs α :=
  { args_kw := kw.args_kw, kwargs_kw := kw.kwargs_kw, other := kw.other }

/-- Hook signature for the per-strategy _update and _update_non_slot
implementations. -/
abbrev UpdateHook (α V : Type) :=
  α → UpdateFn α V → List α → List (String × α) → Bool → UpdateResult V

/-- DistributionStrategy.update: cross-replica guard; pop group (default
True) and grouped (default True) and conjoin them; normalize the
argument-passing style; dispatch to the strategy update hook with var. -/
def DistributionStrategy.update {α V : Type} (sid : Nat)
    (update_hook : UpdateHook α V) (st : ModeStack) (var : α)
    (fn : UpdateFn α V) (args : List α) (kw : UpdateKwargs α) :
    Except PyError (UpdateResult V) :=
  match _require_cross_replica_context st sid with
  | .error e => .error e
  | .ok _ =>
    let group := kw.group.getD true
    let group1 := kw.grouped.getD true && group
    match normalize_call_args "update" args kw.toCallKwargs with
    | .error e => .error e
    | .ok (a, k) => .ok (update_hook var fn a k group1)

/-- DistributionStrategy.update_non_slot: identical to update except the
first argument is the colocation device set instead of a variable. -/
def DistributionStrategy.update_non_slot {α V : Type} (sid : Nat)
    (update_non_slot_hook : UpdateHook α V) (st : ModeStack) (colocate_with : α)
    (fn : UpdateFn α V) (args : List α) (kw : UpdateKwargs α) :
    Except PyError (UpdateResult V) :=
  match _require_cross_replica_context st sid with
  | .error e => .error e
  | .ok _ =>
    let group := kw.group.getD true
    let group1 := kw.grouped.getD true && group
    match normalize_call_args "update_non_slot" args kw.toCallKwargs with
    | .error e => .error e
    | .ok (a, k) => .ok (update_non_slot_hook colocate_with fn a k group1)

/-- _DefaultDistributionStrategy._update_non_slot: run fn with the
UpdateContext device set to colocate_with; return the raw result when
grouping, otherwise the result with every leaf unwrapped into its
one-element list. -/
def _DefaultDistributionStrategy._update_non_slot {α V : Type}
    (colocate_with : α) (fn : UpdateFn α V) (args : List α)
    (kwargs : List (String × α)) (should_group : Bool) : UpdateResult V :=
  let result := fn (some colocate_with) args kwargs
  if should_group then .groupedResult result
  else .ungroupedResult (map_structure _DefaultDistributionStrategy._unwrap result)

/-- _DefaultDistributionStrategy._update: same as _update_non_slot except
var is also prepended to the positional arguments of fn. -/
def _DefaultDistributionStrategy._update {α V : Type} (var : α)
    (fn : UpdateFn α V) (args : List α) (kwargs : List (String × α))
    (group : Bool) : UpdateResult V :=
  _DefaultDistributionStrategy._update_non_slot var fn (var :: args) kwargs group

/-- Public update of the default strategy. -/
def _DefaultDistributionStrategy.update {α V : Type} (sid : Nat)
    (st : ModeStack) (var : α) (fn : UpdateFn α V) (args : List α)
    (kw : UpdateKwargs α) : Except PyError (UpdateResult V) :=
  DistributionStrategy.update sid _DefaultDistributionStrategy._update st var fn
    args kw

/-- Public update_non_slot of the default strategy. -/
def _DefaultDistributionStrategy.update_non_slot {α V : Type} (sid : Nat)
    (st : ModeStack) (colocate_with : α) (fn : UpdateFn α V) (args : List α)
    (kw : UpdateKwargs α) : Except PyError (UpdateResult V) :=
  DistributionStrategy.update_non_slot sid
    _DefaultDistributionStrategy._update_non_slot st colocate_with fn args kw

/-- Helper: mapping a function that succeeds on every element of a list
through the Except monad yields the list of its results. -/
theorem list_mapM_ok {α β : Type} (g : α → Except PyError β) (f : α → β)
    (l : List α) (h : ∀ a ∈ l, g a = .ok (f a)) :
    l.mapM g = .ok (l.map f) := by
  induction l with
  | nil => rfl
  | cons x xs ih =>
    rw [List.mapM_cons, h x (by simp), ih (fun a ha => h a (by simp [ha]))]
    rfl

/-- Claim C9: unwrap of a plain value in the default strategy is the
one-element list holding exactly that value, for every input value. -/
theorem unwrap_singleton {V : Type} (value : V) :
    DistributionStrategy.unwrap _DefaultDistributionStrategy._unwrap value = [value]
    ∧ (DistributionStrategy.unwrap _DefaultDistributionStrategy._unwrap value).length = 1
    ∧ (DistributionStrategy.unwrap _DefaultDistributionStrategy._unwrap value).head?
        = some value :=
  ⟨rfl, rfl, rfl⟩

/-- Claim C7, counterexample: the default strategy broadcast is not the
identity for every destinations argument; at tensor 5 with an explicit
destination it raises NotImplementedError instead of returning the
tensor. -/
theorem default_broadcast_not_identity :
    _DefaultDistributionStrategy._broadcast (5 : Nat) (some (0 : Nat))
      = .error .notImplemented
    ∧ _DefaultDistributionStrategy._broadcast (5 : Nat) (some (0 : Nat))
      ≠ .ok 5 :=
  ⟨rfl, fun h => by simp [_DefaultDistributionStrategy._broadcast] at h⟩

/-- Claim C7 (amended): for the default strategy, reduce returns the value
unchanged for every reduce op and destinations; broadcast returns the
tensor unchanged when destinations is None (its default), and raises
NotImplementedError for every non-None destinations. -/
theorem default_reduce_broadcast_identities {V D : Type} (reduce_op : ReduceOp)
    (value : V) (destinations : D) :
    _DefaultDistributionStrategy._reduce reduce_op value destinations = value
    ∧ _DefaultDistributionStrategy._broadcast value (none : Option D) = .ok value
    ∧ ∀ d : D, _DefaultDistributionStrategy._broadcast value (some d)
        = .error .notImplemented :=
  ⟨rfl, rfl, fun _ => rfl⟩

/-- Claim C2: a call_for_each_replica call on the default strategy leaves
the per-thread mode stack exactly as it was before the call, on every
path: guard failure, argument error, and the replica call itself, whether
the replica function fn returns a value or an error.  The in-replica mode
pushed at entry is popped on every exit path. -/
theorem default_call_for_each_replica_stack_balanced {α ρ : Type} (sid : Nat)
    (fn : Fn α ρ) (args : List α) (kw : CallKwargs α) (st : ModeStack) :
    (_DefaultDistributionStrategy.call_for_each_replica sid fn args kw st).2 = st := by
  unfold _DefaultDistributionStrategy.call_for_each_replica
    DistributionStrategy.call_for_each_replica
  cases hg : _require_cross_replica_context st sid with
  | error e => rfl
  | ok u =>
    cases hn : normalize_call_args "call_for_each_replica" args kw with
    | error e => rfl
    | ok p => rfl

/-- Claim C5: get_per_replica_batch_size errors exactly when the global
batch size is not divisible by num_replicas_in_sync, and otherwise
returns the exact quotient with no rounding. -/
theorem get_per_replica_batch_size_spec (c : InputContext) (g : Int)
    (h : 0 < c.num_replicas_in_sync) :
    ((∃ e, c.get_per_replica_batch_size g = .error e) ↔
      ¬ (c.num_replicas_in_sync ∣ g))
    ∧ (c.num_replicas_in_sync ∣ g →
        c.get_per_replica_batch_size g = .ok (g / c.num_replicas_in_sync)
        ∧ (g / c.num_replicas_in_sync) * c.num_replicas_in_sync = g) := by
  have hm : g.fmod c.num_replicas_in_sync = g % c.num_replicas_in_sync :=
    Int.fmod_eq_emod g (le_of_lt h)
  constructor
  · constructor
    · rintro ⟨e, he⟩ hdvd
      have hz : g % c.num_replicas_in_sync = 0 := Int.emod_eq_zero_of_dvd hdvd
      rw [InputContext.get_per_replica_batch_size, hm, if_neg (by simp [hz])] at he
      exact Except.noConfusion he
    · intro hnd
      have hz : g % c.num_replicas_in_sync ≠ 0 :=
        fun hz => hnd (Int.dvd_of_emod_eq_zero hz)
      refine ⟨.valueError "The global_batch_size is not divisible by num_replicas_in_sync", ?_⟩
      rw [InputContext.get_per_replica_batch_size, hm, if_pos hz]
  · intro hdvd
    have hz : g % c.num_replicas_in_sync = 0 := Int.emod_eq_zero_of_dvd hdvd
    have hd : g.fdiv c.num_replicas_in_sync = g / c.num_replicas_in_sync :=
      Int.fdiv_eq_ediv g (le_of_lt h)
    constructor
    · rw [InputContext.get_per_replica_batch_size, hm, if_neg (by simp [hz]), hd]
    · exact Int.ediv_mul_cancel hdvd

/-- Claim C5, witness: 64 with 8 replicas in sync gives 8; 64 with 7
replicas in sync raises. -/
theorem get_per_replica_batch_size_spec_witness :
    InputContext.get_per_replica_batch_size ⟨1, 0, 8⟩ 64 = .ok 8
    ∧ (∃ e, InputContext.get_per_replica_batch_size ⟨1, 0, 7⟩ 64 = .error e) := by
  constructor
  · have h := (get_per_replica_batch_size_spec ⟨1, 0, 8⟩ 64 (by decide)).2 (by decide)
    rw [h.1]
    exact congrArg Except.ok (by decide)
  · exact (get_per_replica_batch_size_spec ⟨1, 0, 7⟩ 64 (by decide)).1.mpr (by decide)

/-- Helper: the cross-replica guard succeeds when the current mode is the
cross-replica context of exactly the given strategy. -/
theorem require_cross_replica_context_ok (st : ModeStack) (sid : Nat)
    (h : _get_per_thread_mode st = .crossReplica sid) :
    _require_cross_replica_context st sid = .ok () := by
  simp [_require_cross_replica_context, h, ThreadMode.cross_replica_context]

/-- Claim C8: in cross-replica mode for the strategy, the base-class
batch_reduce equals, element-wise and in order, the list of independent
reduce calls on each value-destination pair; each pair is reduced on its
own with no dependence on the other pairs. -/
theorem batch_reduce_is_map_of_reduce {V D : Type} (sid : Nat)
    (reduce_hook : ReduceOp → V → D → V) (st : ModeStack) (reduce_op : ReduceOp)
    (pairs : List (V × D)) (h : _get_per_thread_mode st = .crossReplica sid) :
    DistributionStrategy.batch_reduce sid reduce_hook st reduce_op pairs
      = .ok (pairs.map (fun p => reduce_hook reduce_op p.1 p.2))
    ∧ ∀ p ∈ pairs,
        DistributionStrategy.reduce sid reduce_hook st reduce_op p.1 p.2
          = .ok (reduce_hook reduce_op p.1 p.2) := by
  have hg : _require_cross_replica_context st sid = .ok () :=
    require_cross_replica_context_ok st sid h
  have hred : ∀ p : V × D,
      DistributionStrategy.reduce sid reduce_hook st reduce_op p.1 p.2
        = .ok (reduce_hook reduce_op p.1 p.2) := by
    intro p
    simp [DistributionStrategy.reduce, hg]
  constructor
  · simp only [DistributionStrategy.batch_reduce, hg,
      DistributionStrategy._batch_reduce]
    exact list_mapM_ok _ _ pairs (fun p _ => hred p)
  · exact fun p _ => hred p

/-- Claim C8, witness: two pairs reduced with a concrete hook in a
concrete cross-replica stack give exactly the element-wise list. -/
theorem batch_reduce_is_map_of_reduce_witness :
    DistributionStrategy.batch_reduce 1 (fun _ v (_ : Nat) => v + 1)
      [ThreadMode.crossReplica 1] .SUM [((1 : Nat), (2 : Nat)), (3, 4)]
      = .ok [2, 4] :=
  (batch_reduce_is_map_of_reduce 1 (fun _ v (_ : Nat) => v + 1)
    [ThreadMode.crossReplica 1] .SUM [((1 : Nat), (2 : Nat)), (3, 4)] rfl).1

/-- Claim C1: merge_call invoked with the thread in exactly this replica
context runs merge_fn with the cross-replica mode of the owning strategy
as the current thread mode, and the thread mode after merge_call is again
the stack that was current before, whose top is the in-replica mode of
this replica, whether merge_fn returns a value or raises. -/
theorem merge_call_mode_protocol {α ρ : Type} (self : ReplicaContext)
    (merge_fn : MergeFn α ρ) (args : List α) (kw : CallKwargs α) (st : ModeStack)
    (a : List α) (k : List (String × α))
    (h : _get_per_thread_mode st = .inReplica self)
    (hn : normalize_call_args "merge_call" args kw = .ok (a, k)) :
    ReplicaContext.merge_call self merge_fn args kw st
      = (merge_fn self.distribution_strategy a k
          (.crossReplica self.distribution_strategy :: st), st)
    ∧ _get_per_thread_mode (.crossReplica self.distribution_strategy :: st)
        = .crossReplica self.distribution_strategy
    ∧ _get_per_thread_mode st = .inReplica self
    ∧ (∀ e, merge_fn self.distribution_strategy a k
          (.crossReplica self.distribution_strategy :: st) = .error e →
        (ReplicaContext.merge_call self merge_fn args kw st).2 = st) := by
  have hr : require_replica_context st self = .ok () := by
    simp [require_replica_context, h, ThreadMode.replica_context]
  have hmain : ReplicaContext.merge_call self merge_fn args kw st
      = (merge_fn self.distribution_strategy a k
          (.crossReplica self.distribution_strategy :: st), st) := by
    simp [ReplicaContext.merge_call, hr, hn, ReplicaContext._merge_call,
      _push_per_thread_mode, _pop_per_thread_mode]
  exact ⟨hmain, rfl, h, fun e _ => by rw [hmain]⟩

/-- Claim C1, witness: a raising merge function run from a concrete
replica context sees the cross-replica mode of its strategy and the mode
is restored to the replica mode afterwards. -/
theorem merge_call_mode_protocol_witness :
    ReplicaContext.merge_call ⟨1, 0⟩
        (fun _ _ _ _ => (.error .notImplemented : Except PyError Nat))
        ([] : List Nat) ⟨none, none, []⟩ [ThreadMode.inReplica ⟨1, 0⟩]
      = (.error .notImplemented, [ThreadMode.inReplica ⟨1, 0⟩])
    ∧ _get_per_thread_mode [ThreadMode.inReplica ⟨1, 0⟩]
        = .inReplica ⟨1, 0⟩ := by
  have h := merge_call_mode_protocol ⟨1, 0⟩
    (fun _ _ _ _ => (.error .notImplemented : Except PyError Nat))
    ([] : List Nat) ⟨none, none, []⟩ [ThreadMode.inReplica ⟨1, 0⟩] [] [] rfl rfl
  exact ⟨h.1, h.2.2.1⟩

/-- Claim C3: the cross-replica guard succeeds exactly when the current
thread mode is the cross-replica context of this very strategy, and every
failure is one of three errors: no strategy scope active at all, a
different strategy current (naming both identities), or a replica context
current for this strategy (the error that points at merge_call). -/
theorem require_cross_replica_context_spec (st : ModeStack) (d : Nat) :
    (_require_cross_replica_context st d = .ok () ↔
      _get_per_thread_mode st = .crossReplica d)
    ∧ (∀ e, _require_cross_replica_context st d = .error e →
        (e = .needScope d ∧ has_distribution_strategy st = false)
        ∨ (e = .mixingStrategies (_get_per_thread_mode st).distribution_strategy d
            ∧ (_get_per_thread_mode st).distribution_strategy ≠ d
            ∧ has_distribution_strategy st = true)
        ∨ (e = .requiresCrossReplica
            ∧ ((_get_per_thread_mode st).replica_context).isSome = true
            ∧ (_get_per_thread_mode st).distribution_strategy = d)) := by
  rcases hmode : _get_per_thread_mode st with _ | s | ctx
  · by_cases hd : d = 0
    · have hval : _require_cross_replica_context st d = .error .requiresCrossReplica := by
        simp [_require_cross_replica_context, hmode, ThreadMode.cross_replica_context,
          ThreadMode.distribution_strategy, defaultStrategyId, hd]
      refine ⟨by rw [hval]; simp, ?_⟩
      intro e he
      rw [hval] at he
      injection he with he1
      subst he1
      refine Or.inr (Or.inr ⟨rfl, ?_, ?_⟩)
      · simp [hmode, ThreadMode.replica_context]
      · simp [hmode, ThreadMode.distribution_strategy, defaultStrategyId, hd]
    · have hval : _require_cross_replica_context st d = .error (.needScope d) := by
        simp [_require_cross_replica_context, hmode, ThreadMode.cross_replica_context,
          ThreadMode.distribution_strategy, defaultStrategyId, has_distribution_strategy,
          Ne.symm hd]
      refine ⟨by rw [hval]; simp, ?_⟩
      intro e he
      rw [hval] at he
      injection he with he1
      subst he1
      refine Or.inl ⟨rfl, ?_⟩
      simp [has_distribution_strategy, hmode, ThreadMode.distribution_strategy,
        defaultStrategyId]
  · by_cases hsd : s = d
    · subst hsd
      have hval : _require_cross_replica_context st s = .ok () := by
        simp [_require_cross_replica_context, hmode, ThreadMode.cross_replica_context]
      refine ⟨by rw [hval]; simp, ?_⟩
      intro e he
      rw [hval] at he
      exact Except.noConfusion he
    · by_cases hs0 : s = 0
      · have h0d : ¬ (0 : Nat) = d := hs0 ▸ hsd
        have hval : _require_cross_replica_context st d = .error (.needScope d) := by
          simp [_require_cross_replica_context, hmode, ThreadMode.cross_replica_context,
            ThreadMode.distribution_strategy, defaultStrategyId,
            has_distribution_strategy, hsd, hs0, h0d]
        refine ⟨by rw [hval]; simp [hsd], ?_⟩
        intro e he
        rw [hval] at he
        injection he with he1
        subst he1
        refine Or.inl ⟨rfl, ?_⟩
        simp [has_distribution_strategy, hmode, ThreadMode.distribution_strategy,
          defaultStrategyId, hs0]
      · have hval : _require_cross_replica_context st d
            = .error (.mixingStrategies s d) := by
          simp [_require_cross_replica_context, hmode, ThreadMode.cross_replica_context,
            ThreadMode.distribution_strategy, defaultStrategyId,
            has_distribution_strategy, hsd, hs0]
        refine ⟨by rw [hval]; simp [hsd], ?_⟩
        intro e he
        rw [hval] at he
        injection he with he1
        subst he1
        refine Or.inr (Or.inl ⟨?_, ?_, ?_⟩)
        · simp [hmode, ThreadMode.distribution_strategy]
        · simp [hmode, ThreadMode.distribution_strategy, hsd]
        · simp [has_distribution_strategy, hmode, ThreadMode.distribution_strategy,
            defaultStrategyId, hs0]
  · by_cases hcd : ctx.distribution_strategy = d
    · have hval : _require_cross_replica_context st d = .error .requiresCrossReplica := by
        simp [_require_cross_replica_context, hmode, ThreadMode.cross_replica_context,
          ThreadMode.distribution_strategy, hcd]
      refine ⟨by rw [hval]; simp, ?_⟩
      intro e he
      rw [hval] at he
      injection he with he1
      subst he1
      refine Or.inr (Or.inr ⟨rfl, ?_, ?_⟩)
      · simp [hmode, ThreadMode.replica_context]
      · simp [hmode, ThreadMode.distribution_strategy, hcd]
    · by_cases hc0 : ctx.distribution_strategy = 0
      · have h0d : ¬ (0 : Nat) = d := hc0 ▸ hcd
        have hval : _require_cross_replica_context st d = .error (.needScope d) := by
          simp [_require_cross_replica_context, hmode, ThreadMode.cross_replica_context,
            ThreadMode.distribution_strategy, defaultStrategyId,
            has_distribution_strategy, hcd, hc0, h0d]
        refine ⟨by rw [hval]; simp, ?_⟩
        intro e he
        rw [hval] at he
        injection he with he1
        subst he1
        refine Or.inl ⟨rfl, ?_⟩
        simp [has_distribution_strategy, hmode, ThreadMode.distribution_strategy,
          defaultStrategyId, hc0]
      · have hval : _require_cross_replica_context st d
            = .error (.mixingStrategies ctx.distribution_strategy d) := by
          simp [_require_cross_replica_context, hmode, ThreadMode.cross_replica_context,
            ThreadMode.distribution_strategy, defaultStrategyId,
            has_distribution_strategy, hcd, hc0]
        refine ⟨by rw [hval]; simp, ?_⟩
        intro e he
        rw [hval] at he
        injection he with he1
        subst he1
        refine Or.inr (Or.inl ⟨?_, ?_, ?_⟩)
        · simp [hmode, ThreadMode.distribution_strategy]
        · simp [hmode, ThreadMode.distribution_strategy, hcd]
        · simp [has_distribution_strategy, hmode, ThreadMode.distribution_strategy,
            defaultStrategyId, hc0]

/-- Claim C3, witness: the guard succeeds for the strategy whose
cross-replica mode is current, fails inside a replica context with the
merge_call-pointing error, and fails under a different strategy naming
both. -/
theorem require_cross_replica_context_spec_witness :
    _require_cross_replica_context [ThreadMode.crossReplica 1] 1 = .ok ()
    ∧ _require_cross_replica_context [] 2 = .error (.needScope 2)
    ∧ _require_cross_replica_context [ThreadMode.crossReplica 1] 2
        = .error (.mixingStrategies 1 2)
    ∧ _require_cross_replica_context [ThreadMode.inReplica ⟨1, 0⟩] 1
        = .error .requiresCrossReplica := by
  refine ⟨(require_cross_replica_context_spec [ThreadMode.crossReplica 1] 1).1.mpr rfl,
    rfl, rfl, rfl⟩

/-- Claim C4: entering scope while the cross-replica mode of a different
strategy is current raises the nested-scope error naming both strategies;
re-entering scope while this very strategy is current succeeds with the
trivial pass-through context, which leaves the mode stack unchanged and
installs no variable-creator, variable or device scope. -/
theorem scope_nested_and_reentry (sid s' : Nat) (default_device : Option Nat)
    (st : ModeStack) :
    (_get_per_thread_mode st = .crossReplica s' → s' ≠ sid → s' ≠ defaultStrategyId →
      DistributionStrategy.scope sid default_device st
        = .error (.mixingStrategies s' sid))
    ∧ (_get_per_thread_mode st = .crossReplica sid → sid ≠ defaultStrategyId →
      DistributionStrategy.scope sid default_device st = .ok (.sameScopeAgainContext sid)
      ∧ (ScopeContextManager.enter (.sameScopeAgainContext sid) st).stack = st
      ∧ (ScopeContextManager.enter (.sameScopeAgainContext sid) st).var_creator_scope_entered
          = false
      ∧ (ScopeContextManager.enter (.sameScopeAgainContext sid) st).var_scope_entered = false
      ∧ (ScopeContextManager.enter (.sameScopeAgainContext sid) st).device_scope_entered
          = false) := by
  constructor
  · intro hmode hne h0
    have h0n : ¬ s' = 0 := by simpa [defaultStrategyId] using h0
    have hds : has_distribution_strategy st = true := by
      simp [has_distribution_strategy, hmode, ThreadMode.distribution_strategy,
        defaultStrategyId, h0n]
    have hguard : _require_cross_replica_context st sid
        = .error (.mixingStrategies s' sid) := by
      simp [_require_cross_replica_context, hmode, ThreadMode.cross_replica_context,
        ThreadMode.distribution_strategy, hne, hds]
    simp [DistributionStrategy.scope, hds, hguard]
  · intro hmode h0
    have h0n : ¬ sid = 0 := by simpa [defaultStrategyId] using h0
    have hds : has_distribution_strategy st = true := by
      simp [has_distribution_strategy, hmode, ThreadMode.distribution_strategy,
        defaultStrategyId, h0n]
    have hguard : _require_cross_replica_context st sid = .ok () :=
      require_cross_replica_context_ok st sid hmode
    exact ⟨by simp [DistributionStrategy.scope, hds, hguard], rfl, rfl, rfl, rfl⟩

/-- Claim C4, witness: entering scope for strategy 1 under strategy 2
raises the mixing error naming both; re-entering under strategy 1 itself
returns the pass-through context leaving the stack unchanged. -/
theorem scope_nested_and_reentry_witness :
    DistributionStrategy.scope 1 none [ThreadMode.crossReplica 2]
      = .error (.mixingStrategies 2 1)
    ∧ DistributionStrategy.scope 1 none [ThreadMode.crossReplica 1]
      = .ok (.sameScopeAgainContext 1)
    ∧ (ScopeContextManager.enter (.sameScopeAgainContext 1)
        [ThreadMode.crossReplica 1]).stack = [ThreadMode.crossReplica 1] :=
  ⟨(scope_nested_and_reentry 1 2 none [ThreadMode.crossReplica 2]).1 rfl
      (by decide) (by decide),
    ((scope_nested_and_reentry 1 1 none [ThreadMode.crossReplica 1]).2 rfl
      (by decide)).1,
    ((scope_nested_and_reentry 1 1 none [ThreadMode.crossReplica 1]).2 rfl
      (by decide)).2.1⟩

/-- Claim C6: supplying positional arguments both as legacy trailing
arguments and as a structured args container (or keyword arguments both
directly and as a kwargs container) is an error; each single style passes
the arguments through unchanged.  The last three conjuncts show the error
propagating from call_for_each_replica, merge_call, update and
update_non_slot, which all run this normalization. -/
theorem ambiguous_argument_styles {α V ρ : Type} (args : List α) (kw : CallKwargs α) :
    (∀ (method : String) a, kw.args_kw = some a → args ≠ [] →
      normalize_call_args method args kw = .error (.ambiguousArgs method))
    ∧ (∀ (method : String) k, kw.kwargs_kw = some k → kw.other ≠ [] →
        (args = [] ∨ kw.args_kw = none) →
      normalize_call_args method args kw = .error (.ambiguousKwargs method))
    ∧ (∀ (method : String), kw.args_kw = none → kw.kwargs_kw = none →
      normalize_call_args method args kw = .ok (args, kw.other))
    ∧ (∀ (method : String) a k, args = [] → kw.other = [] → kw.args_kw = some a →
        kw.kwargs_kw = some k →
      normalize_call_args method args kw = .ok (a, k))
    ∧ (∀ (sid : Nat) (st : ModeStack) (call_hook : CallForEachReplicaHook α ρ)
        (fn : Fn α ρ) a, _get_per_thread_mode st = .crossReplica sid →
        kw.args_kw = some a → args ≠ [] →
        DistributionStrategy.call_for_each_replica sid call_hook fn args kw st
          = (.error (.ambiguousArgs "call_for_each_replica"), st))
    ∧ (∀ (self : ReplicaContext) (st : ModeStack) (merge_fn : MergeFn α ρ) a,
        _get_per_thread_mode st = .inReplica self → kw.args_kw = some a → args ≠ [] →
        ReplicaContext.merge_call self merge_fn args kw st
          = (.error (.ambiguousArgs "merge_call"), st))
    ∧ (∀ (sid : Nat) (st : ModeStack) (hook : UpdateHook α V) (var : α)
        (fn : UpdateFn α V) (ukw : UpdateKwargs α) a,
        _get_per_thread_mode st = .crossReplica sid → ukw.toCallKwargs = kw →
        kw.args_kw = some a → args ≠ [] →
        DistributionStrategy.update sid hook st var fn args ukw
          = .error (.ambiguousArgs "update")
        ∧ DistributionStrategy.update_non_slot sid hook st var fn args ukw
          = .error (.ambiguousArgs "update_non_slot")) := by
  have key : ∀ (method : String) a, kw.args_kw = some a → args ≠ [] →
      normalize_call_args method args kw = .error (.ambiguousArgs method) := by
    intro method a ha hargs
    cases args with
    | nil => exact absurd rfl hargs
    | cons x xs => simp [normalize_call_args, ha]
  refine ⟨key, ?_, ?_, ?_, ?_, ?_, ?_⟩
  · intro method k hk hother hcase
    have hoth : kw.other.isEmpty = false := by
      cases hval : kw.other with
      | nil => exact absurd hval hother
      | cons y ys => rfl
    rcases hac : kw.args_kw with _ | a
    · simp [normalize_call_args, hac, hk, hoth]
    · rcases hcase with hargs | hnone
      · subst hargs
        simp [normalize_call_args, hac, hk, hoth]
      · rw [hnone] at hac
        exact Option.noConfusion hac
  · intro method ha hk
    simp [normalize_call_args, ha, hk]
  · intro method a k hargs hother ha hk
    subst hargs
    simp [normalize_call_args, ha, hk, hother]
  · intro sid st call_hook fn a hmode ha hargs
    have hg := require_cross_replica_context_ok st sid hmode
    have hn := key "call_for_each_replica" a ha hargs
    simp [DistributionStrategy.call_for_each_replica, hg, hn]
  · intro self st merge_fn a hmode ha hargs
    have hr : require_replica_context st self = .ok () := by
      simp [require_replica_context, hmode, ThreadMode.replica_context]
    have hn := key "merge_call" a ha hargs
    simp [ReplicaContext.merge_call, hr, hn]
  · intro sid st hook var fn ukw a hmode hukw ha hargs
    have hg := require_cross_replica_context_ok st sid hmode
    constructor
    · have hn := key "update" a ha hargs
      simp [DistributionStrategy.update, hg, hukw, hn]
    · have hn := key "update_non_slot" a ha hargs
      simp [DistributionStrategy.update_non_slot, hg, hukw, hn]

/-- Claim C6, witness: a concrete call supplying both a legacy positional
argument and an args container is rejected, and each single style passes
through unchanged. -/
theorem ambiguous_argument_styles_witness :
    normalize_call_args "update" [(1 : Nat)] ⟨some [2], none, []⟩
      = .error (.ambiguousArgs "update")
    ∧ normalize_call_args "update" [(1 : Nat)] ⟨none, none, [("x", 3)]⟩
      = .ok ([1], [("x", 3)])
    ∧ normalize_call_args "update" ([] : List Nat) ⟨some [2], some [("x", 3)], []⟩
      = .ok ([2], [("x", 3)])
    ∧ ReplicaContext.merge_call ⟨1, 0⟩
        (fun _ _ _ _ => (.ok 0 : Except PyError Nat)) [(1 : Nat)]
        ⟨some [2], none, []⟩ [ThreadMode.inReplica ⟨1, 0⟩]
      = (.error (.ambiguousArgs "merge_call"), [ThreadMode.inReplica ⟨1, 0⟩]) := by
  refine ⟨(ambiguous_argument_styles (V := Nat) (ρ := Nat) [(1 : Nat)]
      ⟨some [2], none, []⟩).1 "update" [2] rfl (by decide), ?_, ?_, ?_⟩
  · exact (ambiguous_argument_styles (V := Nat) (ρ := Nat) [(1 : Nat)]
      ⟨none, none, [("x", 3)]⟩).2.2.1 "update" rfl rfl
  · exact (ambiguous_argument_styles (V := Nat) (ρ := Nat) ([] : List Nat)
      ⟨some [2], some [("x", 3)], []⟩).2.2.2.1 "update" [2] [("x", 3)] rfl rfl rfl rfl
  · exact (ambiguous_argument_styles (V := Nat) (ρ := Nat) [(1 : Nat)]
      ⟨some [2], none, []⟩).2.2.2.2.2.1 ⟨1, 0⟩ [ThreadMode.inReplica ⟨1, 0⟩]
      (fun _ _ _ _ => (.ok 0 : Except PyError Nat)) [2] rfl rfl (by decide)

/-- Claim C10: in update and update_non_slot the effective grouping flag
is the conjunction of the group and grouped keywords, each defaulting to
true; either one being false selects the ungrouped behaviour, under which
the default strategy returns the result of fn with every leaf replaced by
its unwrapped one-element list instead of the raw result. -/
theorem update_group_flag_semantics {α V : Type} (sid : Nat) (st : ModeStack)
    (var : α) (fn : UpdateFn α V) (args : List α) (kw : UpdateKwargs α)
    (h : _get_per_thread_mode st = .crossReplica sid)
    (ha : kw.args_kw = none) (hk : kw.kwargs_kw = none) :
    _DefaultDistributionStrategy.update sid st var fn args kw
      = .ok (_DefaultDistributionStrategy._update var fn args kw.other
          (kw.grouped.getD true && kw.group.getD true))
    ∧ ((kw.group = some false ∨ kw.grouped = some false) →
        _DefaultDistributionStrategy.update sid st var fn args kw
          = .ok (.ungroupedResult (map_structure _DefaultDistributionStrategy._unwrap
              (fn (some var) (var :: args) kw.other))))
    ∧ (kw.group = none → kw.grouped = none →
        _DefaultDistributionStrategy.update sid st var fn args kw
          = .ok (.groupedResult (fn (some var) (var :: args) kw.other)))
    ∧ ((kw.group = some false ∨ kw.grouped = some false) →
        _DefaultDistributionStrategy.update_non_slot sid st var fn args kw
          = .ok (.ungroupedResult (map_structure _DefaultDistributionStrategy._unwrap
              (fn (some var) args kw.other)))) := by
  have hg : _require_cross_replica_context st sid = .ok () :=
    require_cross_replica_context_ok st sid h
  have hn : normalize_call_args "update" args kw.toCallKwargs
      = .ok (args, kw.other) := by
    simp [normalize_call_args, UpdateKwargs.toCallKwargs, ha, hk]
  have hn2 : normalize_call_args "update_non_slot" args kw.toCallKwargs
      = .ok (args, kw.other) := by
    simp [normalize_call_args, UpdateKwargs.toCallKwargs, ha, hk]
  have hmain : _DefaultDistributionStrategy.update sid st var fn args kw
      = .ok (_DefaultDistributionStrategy._update var fn args kw.other
          (kw.grouped.getD true && kw.group.getD true)) := by
    simp [_DefaultDistributionStrategy.update, DistributionStrategy.update, hg, hn]
  have hflag : (kw.group = some false ∨ kw.grouped = some false) →
      (kw.grouped.getD true && kw.group.getD true) = false := by
    rintro (hgf | hgf) <;> simp [hgf]
  refine ⟨hmain, ?_, ?_, ?_⟩
  · intro hcase
    rw [hmain, hflag hcase]
    rfl
  · intro hg1 hg2
    rw [hmain, hg1, hg2]
    rfl
  · intro hcase
    have hmain2 : _DefaultDistributionStrategy.update_non_slot sid st var fn args kw
        = .ok (_DefaultDistributionStrategy._update_non_slot var fn args kw.other
            (kw.grouped.getD true && kw.group.getD true)) := by
      simp [_DefaultDistributionStrategy.update_non_slot,
        DistributionStrategy.update_non_slot, hg, hn2]
    rw [hmain2, hflag hcase]
    rfl

/-- Claim C10, witness: with the grouped keyword false the default
strategy update returns the nest of one-element lists for a concrete leaf
result, and with neither keyword the raw result. -/
theorem update_group_flag_semantics_witness :
    _DefaultDistributionStrategy.update 1 [ThreadMode.crossReplica 1] (7 : Nat)
        (fun _ _ _ => Nest.leaf (3 : Nat)) [] ⟨none, some false, none, none, []⟩
      = .ok (.ungroupedResult (Nest.leaf [3]))
    ∧ _DefaultDistributionStrategy.update 1 [ThreadMode.crossReplica 1] (7 : Nat)
        (fun _ _ _ => Nest.leaf (3 : Nat)) [] ⟨none, none, none, none, []⟩
      = .ok (.groupedResult (Nest.leaf 3)) := by
  constructor
  · have h := (update_group_flag_semantics 1 [ThreadMode.crossReplica 1] (7 : Nat)
      (fun _ _ _ => Nest.leaf (3 : Nat)) [] ⟨none, some false, none, none, []⟩
      rfl rfl rfl).2.1 (Or.inr rfl)
    rw [h]
    rfl
  · have h := (update_group_flag_semantics 1 [ThreadMode.crossReplica 1] (7 : Nat)
      (fun _ _ _ => Nest.leaf (3 : Nat)) [] ⟨none, none, none, none, []⟩
      rfl rfl rfl).2.2.1 rfl rfl
    rw [h]

